import Mathlib

/-!
Shallow embedding of the file-batch-processor core (plugin-dispatch batch
engine): the two batch-executor strategies, the observer protocol, the
strategy factory, plugin discovery and the processor dependency check.

Modelling conventions:
* A Python call that may raise is embedded as `Except String α`; the
  `String` is the raised exception's message (`str(e)`).
* Although per-file tasks run on a `ThreadPoolExecutor`, the executor
  thread awaits `future.result()` in submission order and performs every
  observer notification and every append to the results list itself, so
  the observable behaviour of `_process_files_thread` is the sequential
  fold over `files` embedded here.
* `Event.gatherCall` records the invocation of the processor's
  `gather_results` method.  It is not an observer notification; the
  observer-visible trace is `observerEvents`.
-/

namespace FileBatchProcessor

/-- Events produced during a batch run.  `start`, `fileComplete` and
`complete` are the observer notifications of `ProcessingObserver`
(`on_start`, `on_file_complete`, `on_complete`); `gatherCall results
saveFormat` marks the single invocation of `gather_results` by the
Adjoint strategy.  `α` is the type of an Adjoint intermediate result. -/
inductive Event (α : Type) where
  | start (totalFiles : Nat)
  | fileComplete (file : String) (result : String) (success : Bool) (message : String)
  | gatherCall (results : List α) (saveFormat : String)
  | complete
deriving DecidableEq

/-- Observer-visible events: everything except the internal `gatherCall`. -/
def observerEvents {α : Type} (t : List (Event α)) : List (Event α) :=
  t.filter fun e =>
    match e with
    | .gatherCall _ _ => false
    | _ => true

/-- Tests whether an event is a `fileComplete` notification. -/
def isFileComplete {α : Type} : Event α → Bool
  | .fileComplete _ _ _ _ => true
  | _ => false

/-- Number of `start` events in a trace. -/
def countStart {α : Type} (t : List (Event α)) : Nat :=
  t.countP fun e => match e with | .start _ => true | _ => false

/-- Number of `fileComplete` events in a trace. -/
def countFileComplete {α : Type} (t : List (Event α)) : Nat :=
  t.countP isFileComplete

/-- Number of `complete` events in a trace. -/
def countComplete {α : Type} (t : List (Event α)) : Nat :=
  t.countP fun e => match e with | .complete => true | _ => false

/-- Number of `gatherCall` events in a trace. -/
def countGatherCall {α : Type} (t : List (Event α)) : Nat :=
  t.countP fun e => match e with | .gatherCall _ _ => true | _ => false

/-- The `file` arguments of the `fileComplete` events of a trace, in
emission order. -/
def fcFiles {α : Type} (t : List (Event α)) : List String :=
  t.filterMap fun e =>
    match e with
    | .fileComplete f _ _ _ => some f
    | _ => none

/-- The `results` argument of each `gatherCall` in a trace. -/
def gatherArgs {α : Type} (t : List (Event α)) : List (List α) :=
  t.filterMap fun e =>
    match e with
    | .gatherCall rs _ => some rs
    | _ => none

/-- Shape of the `output_path` target on the filesystem when the run is
requested: it does not exist, it exists as a regular file, or it exists
as a directory. -/
inductive PathShape where
  | absent
  | file
  | dir
deriving DecidableEq

/-- Synchronous entry-point failures of `process_files`.
`invalidOutputTarget` embeds the `ValueError("Output path must be a
file, not a directory")` raised by `AdjointBatchProcessor.process_files`
and the `FileExistsError` raised by `os.makedirs(self.output_path,
exist_ok=True)` in `IndividualBatchProcessor.process_files` when the
target exists as a non-directory. -/
inductive BatchError where
  | invalidOutputTarget
deriving DecidableEq

/-! ### Adjoint strategy (`adjoint_batch_processor.py`) -/

/-- The `fileComplete` notification emitted for one file by
`AdjointBatchProcessor._process_files_thread`: on success the `result`
field is `str(self.output_path)` and the message is empty; on a raised
exception the `result` field is `""` and the message is `str(e)`. -/
def adjointFileEvent {α : Type} (process : String → Except String α)
    (outputPath file : String) : Event α :=
  match process file with
  | .ok _ => .fileComplete file outputPath true ""
  | .error e => .fileComplete file "" false e

/-- The result-collection loop of
`AdjointBatchProcessor._process_files_thread`: futures are awaited in
submission order; a successful result is appended to `results` and a
success notification emitted, a raised exception is caught and a failure
notification emitted (nothing is appended).  Returns the accumulated
`results` list and the emitted events. -/
def adjointLoop {α : Type} (process : String → Except String α)
    (outputPath : String) : List String → List α × List (Event α)
  | [] => ([], [])
  | file :: rest =>
    match process file with
    | .ok result =>
        let (rs, evs) := adjointLoop process outputPath rest
        (result :: rs, .fileComplete file outputPath true "" :: evs)
    | .error e =>
        let (rs, evs) := adjointLoop process outputPath rest
        (rs, .fileComplete file "" false e :: evs)

/-- `AdjointBatchProcessor._process_files_thread`: run the per-file
loop, then call `self._gather_results(results, save_format)` (the
`AdjointProcessor` class always defines `gather_results`, so the
`hasattr` guard passes) and finally `self._notify_complete()`.  The call
to `_gather_results` is not wrapped in any `try`, so if `gather_results`
raises, the exception propagates out of the daemon thread's target and
`_notify_complete` never runs. -/
def adjointProcessFilesThread {α : Type} (process : String → Except String α)
    (gather : List α → String → Except String Unit)
    (outputPath saveFormat : String) (files : List String) : List (Event α) :=
  let (results, evs) := adjointLoop process outputPath files
  match gather results saveFormat with
  | .ok _ => evs ++ [.gatherCall results saveFormat, .complete]
  | .error _ => evs ++ [.gatherCall results saveFormat]

/-- `AdjointBatchProcessor.process_files`: if the output path exists and
is a directory, raise `ValueError` before anything else (before the
parent `mkdir`, before `_notify_start`, before the worker thread is
started); otherwise emit `Start(len(files))` and run the thread body. -/
def adjointProcessFiles {α : Type} (process : String → Except String α)
    (gather : List α → String → Except String Unit) (outputShape : PathShape)
    (outputPath saveFormat : String) (files : List String) :
    Except BatchError (List (Event α)) :=
  if outputShape = .dir then
    .error .invalidOutputTarget
  else
    .ok (.start files.length ::
      adjointProcessFilesThread process gather outputPath saveFormat files)

/-! ### Individual strategy (`individual_batch_processor.py`) -/

/-- The `fileComplete` notification emitted for one file by
`IndividualBatchProcessor._process_files_thread`: on success the
`result` field is the artifact path returned by
`process(file, str(output_path), save_format)`; on a raised exception
the `result` field is `""` and the message is `str(e)`. -/
def individualFileEvent (process : String → String → String → Except String String)
    (outputPath saveFormat file : String) : Event Unit :=
  match process file outputPath saveFormat with
  | .ok result => .fileComplete file result true ""
  | .error e => .fileComplete file "" false e

/-- The per-file loop of
`IndividualBatchProcessor._process_files_thread`, awaiting futures in
submission order; exceptions are caught per file. -/
def individualLoop (process : String → String → String → Except String String)
    (outputPath saveFormat : String) : List String → List (Event Unit)
  | [] => []
  | file :: rest =>
      individualFileEvent process outputPath saveFormat file ::
        individualLoop process outputPath saveFormat rest

/-- `IndividualBatchProcessor._process_files_thread`: the per-file loop
followed by `self._notify_complete()`. -/
def individualProcessFilesThread (process : String → String → String → Except String String)
    (outputPath saveFormat : String) (files : List String) : List (Event Unit) :=
  individualLoop process outputPath saveFormat files ++ [.complete]

/-- `IndividualBatchProcessor.process_files`: `os.makedirs(output_path,
exist_ok=True)` raises `FileExistsError` when the output path exists as
a non-directory, before `_notify_start` and before the worker thread is
started; otherwise the directory is created if absent, `Start` is
emitted and the thread body runs. -/
def individualProcessFiles (process : String → String → String → Except String String)
    (outputShape : PathShape) (outputPath saveFormat : String)
    (files : List String) : Except BatchError (List (Event Unit)) :=
  if outputShape = .file then
    .error .invalidOutputTarget
  else
    .ok (.start files.length ::
      individualProcessFilesThread process outputPath saveFormat files)

/-! ### Factory (`batch_processor_factory.py`) -/

/-- `ProcessorCategory` from `model/Iprocessor.py`. -/
inductive ProcessorCategory where
  | INDIVIDUAL
  | ADJOINT
  | UNKNOWN
deriving DecidableEq

/-- The executor strategy classes the factory can instantiate. -/
inductive BatchStrategy where
  | individualBatchProcessor
  | adjointBatchProcessor
deriving DecidableEq

/-- Factory failure: the `ValueError("Unsupported processor category:
...")` raised when `_processor_map.get(processor.category)` returns
`None`. -/
inductive FactoryError where
  | unsupportedCategory
deriving DecidableEq

/-- `BatchProcessorFactory.create_batch_processor`, threading an
explicit external state `σ` (e.g. the filesystem) to make effects
observable: the body is a `_processor_map` lookup (`INDIVIDUAL` and
`ADJOINT` are the registered keys, `UNKNOWN` is absent) followed by the
strategy constructor, and performs no effect on `σ`. -/
def create_batch_processor {σ : Type} (category : ProcessorCategory) (s : σ) :
    Except FactoryError BatchStrategy × σ :=
  match category with
  | .INDIVIDUAL => (.ok .individualBatchProcessor, s)
  | .ADJOINT => (.ok .adjointBatchProcessor, s)
  | .UNKNOWN => (.error .unsupportedCategory, s)

/-! ### Plugin discovery (`plugin_manager.py`) -/

/-- A member of an imported module as seen by `inspect.getmembers`:
its name and the three tests applied by `discover_plugins`
(`inspect.isclass(obj)`, `issubclass(obj, Processor)`,
`obj != Processor`, the last recorded as `isProcessorBase`). -/
structure PluginMember where
  name : String
  isClass : Bool
  isProcessorSubclass : Bool
  isProcessorBase : Bool
deriving DecidableEq

/-- A candidate plugin file: its stem and the outcome of the two import
attempts `importlib.import_module(stem)` and
`importlib.import_module("plugins." ++ stem)` (a successful import
yields the module's members; a failure carries the exception message). -/
structure PluginFile where
  stem : String
  importResult : Except String (List PluginMember)
  altImportResult : Except String (List PluginMember)

/-- The members of a module that `discover_plugins` collects: classes
that are `Processor` subclasses other than `Processor` itself. -/
def modulePlugins (members : List PluginMember) : List PluginMember :=
  members.filter fun m => m.isClass && m.isProcessorSubclass && !m.isProcessorBase

/-- The processor classes contributed by one candidate file: the primary
attempt runs first; on any exception the alternate import path is
attempted; if both raise, the errors are logged and the candidate
contributes nothing. -/
def discoverFile (pf : PluginFile) : List PluginMember :=
  match pf.importResult with
  | .ok members => modulePlugins members
  | .error _ =>
    match pf.altImportResult with
    | .ok members => modulePlugins members
    | .error _ => []

/-- The per-file loop of `PluginManager.discover_plugins`, appending
each candidate's collected classes to the `processors` accumulator. -/
def discover_plugins (files : List PluginFile) : List PluginMember :=
  match files with
  | [] => []
  | pf :: rest => discoverFile pf ++ discover_plugins rest

/-! ### Dependency check (`model/Iprocessor.py`) -/

/-- Outcome of `importlib.import_module(dep)` for one dependency in the
current environment: a successful import, an `ImportError` (the module
is not installed), or any other exception raised while importing (e.g.
the module's top-level code raising). -/
inductive ImportOutcome where
  | ok
  | importError (msg : String)
  | otherError (msg : String)
deriving DecidableEq

/-- The accumulation loop of `IProcessor.check_dependencies`: each
declared dependency is imported; an `ImportError` is caught and the
dependency appended to `missing`; any other exception is not caught and
propagates out of `check_dependencies`. -/
def collectMissing (env : String → ImportOutcome) :
    List String → Except String (List String)
  | [] => .ok []
  | dep :: rest =>
    match env dep with
    | .ok => collectMissing env rest
    | .importError _ =>
        match collectMissing env rest with
        | .ok ms => .ok (dep :: ms)
        | .error e => .error e
    | .otherError m => .error m

/-- `IProcessor.check_dependencies`, over the declared `dependencies`
list and an environment giving each import's outcome: returns
`(len(missing) == 0, missing)` unless an uncaught exception escapes the
loop. -/
def check_dependencies (dependencies : List String)
    (env : String → ImportOutcome) : Except String (Bool × List String) :=
  match collectMissing env dependencies with
  | .ok missing => .ok (missing.isEmpty, missing)
  | .error e => .error e

/-! ### Observer registration and notification (`Ibatch_processor.py`) -/

/-- `IBatchProcessor.add_observer`: the observer is appended only if it
is not already in the list. -/
def add_observer {Obs : Type} [DecidableEq Obs] (observers : List Obs)
    (observer : Obs) : List Obs :=
  if observer ∈ observers then observers else observers ++ [observer]

/-- One notification round (`_notify_start`, `_notify_file_complete` or
`_notify_complete`): the loop invokes the callback once per entry of the
observer list, in order; the deliveries are the (observer, event) pairs
produced. -/
def notifyObservers {Obs α : Type} (observers : List Obs) (e : Event α) :
    List (Obs × Event α) :=
  observers.map fun o => (o, e)

/-! ### Structural lemmas about the executor loops -/

/-- The intermediate results kept by the Adjoint loop: the successful
`process` outcomes, in submission (= file) order; failed files
contribute nothing. -/
def successfulResults {α : Type} (process : String → Except String α)
    (files : List String) : List α :=
  files.filterMap fun f => (process f).toOption

theorem adjointLoop_eq {α : Type} (process : String → Except String α)
    (outputPath : String) (files : List String) :
    adjointLoop process outputPath files
      = (successfulResults process files,
         files.map (adjointFileEvent process outputPath)) := by
  induction files with
  | nil => rfl
  | cons file rest ih =>
    cases h : process file <;>
      simp [adjointLoop, successfulResults, adjointFileEvent, h, ih,
        List.filterMap_cons, Except.toOption]

theorem adjointProcessFilesThread_eq {α : Type}
    (process : String → Except String α)
    (gather : List α → String → Except String Unit)
    (outputPath saveFormat : String) (files : List String) :
    adjointProcessFilesThread process gather outputPath saveFormat files
      = files.map (adjointFileEvent process outputPath)
        ++ Event.gatherCall (successfulResults process files) saveFormat
          :: (match gather (successfulResults process files) saveFormat with
              | .ok _ => [Event.complete]
              | .error _ => []) := by
  unfold adjointProcessFilesThread
  rw [adjointLoop_eq]
  cases h : gather (successfulResults process files) saveFormat <;> simp [h]

theorem individualLoop_eq_map
    (process : String → String → String → Except String String)
    (outputPath saveFormat : String) (files : List String) :
    individualLoop process outputPath saveFormat files
      = files.map (individualFileEvent process outputPath saveFormat) := by
  induction files with
  | nil => rfl
  | cons file rest ih => simp [individualLoop, ih]

/-! ### Counting helpers for event traces -/

theorem isFileComplete_individualFileEvent
    (process : String → String → String → Except String String)
    (outputPath saveFormat file : String) :
    isFileComplete (individualFileEvent process outputPath saveFormat file) = true := by
  cases h : process file outputPath saveFormat <;>
    simp [individualFileEvent, isFileComplete, h]

theorem isFileComplete_adjointFileEvent {α : Type}
    (process : String → Except String α) (outputPath file : String) :
    isFileComplete (adjointFileEvent process outputPath file) = true := by
  cases h : process file <;> simp [adjointFileEvent, isFileComplete, h]

theorem countStart_eq_zero {α : Type} {t : List (Event α)}
    (h : ∀ e ∈ t, isFileComplete e = true) : countStart t = 0 := by
  rw [countStart, List.countP_eq_zero]
  intro e he
  have hfc := h e he
  cases e <;> simp [isFileComplete] at hfc ⊢

theorem countComplete_eq_zero {α : Type} {t : List (Event α)}
    (h : ∀ e ∈ t, isFileComplete e = true) : countComplete t = 0 := by
  rw [countComplete, List.countP_eq_zero]
  intro e he
  have hfc := h e he
  cases e <;> simp [isFileComplete] at hfc ⊢

theorem countGatherCall_eq_zero {α : Type} {t : List (Event α)}
    (h : ∀ e ∈ t, isFileComplete e = true) : countGatherCall t = 0 := by
  rw [countGatherCall, List.countP_eq_zero]
  intro e he
  have hfc := h e he
  cases e <;> simp [isFileComplete] at hfc ⊢

theorem countFileComplete_eq_length {α : Type} {t : List (Event α)}
    (h : ∀ e ∈ t, isFileComplete e = true) : countFileComplete t = t.length := by
  rw [countFileComplete, List.countP_eq_length]
  exact h

theorem individualLoop_all_fc
    (process : String → String → String → Except String String)
    (outputPath saveFormat : String) (files : List String) :
    ∀ e ∈ individualLoop process outputPath saveFormat files,
      isFileComplete e = true := by
  rw [individualLoop_eq_map]
  intro e he
  rcases List.mem_map.1 he with ⟨f, _, rfl⟩
  exact isFileComplete_individualFileEvent process outputPath saveFormat f

theorem adjointEvents_all_fc {α : Type} (process : String → Except String α)
    (outputPath : String) (files : List String) :
    ∀ e ∈ files.map (adjointFileEvent process outputPath),
      isFileComplete e = true := by
  intro e he
  rcases List.mem_map.1 he with ⟨f, _, rfl⟩
  exact isFileComplete_adjointFileEvent process outputPath f

theorem fcFiles_individualLoop
    (process : String → String → String → Except String String)
    (outputPath saveFormat : String) (files : List String) :
    fcFiles (individualLoop process outputPath saveFormat files) = files := by
  induction files with
  | nil => rfl
  | cons file rest ih =>
    rw [individualLoop]
    cases h : process file outputPath saveFormat <;>
      simp [fcFiles, individualFileEvent, h, List.filterMap_cons] <;>
      simpa [fcFiles] using ih

theorem fcFiles_adjointEvents {α : Type} (process : String → Except String α)
    (outputPath : String) (files : List String) :
    fcFiles (files.map (adjointFileEvent process outputPath)) = files := by
  induction files with
  | nil => rfl
  | cons file rest ih =>
    rw [List.map_cons]
    cases h : process file <;>
      simp [fcFiles, adjointFileEvent, h, List.filterMap_cons] <;>
      simpa [fcFiles] using ih

theorem individualThread_getElem
    (process : String → String → String → Except String String)
    (outputPath saveFormat : String) (files : List String)
    (i : Nat) (h : i < files.length) :
    (individualProcessFilesThread process outputPath saveFormat files)[i]?
      = some (individualFileEvent process outputPath saveFormat files[i]) := by
  unfold individualProcessFilesThread
  rw [individualLoop_eq_map,
    List.getElem?_append_left (by simpa using h),
    List.getElem?_map, List.getElem?_eq_getElem h]
  rfl

theorem adjointThread_getElem {α : Type} (process : String → Except String α)
    (gather : List α → String → Except String Unit)
    (outputPath saveFormat : String) (files : List String)
    (i : Nat) (h : i < files.length) :
    (adjointProcessFilesThread process gather outputPath saveFormat files)[i]?
      = some (adjointFileEvent process outputPath files[i]) := by
  rw [adjointProcessFilesThread_eq,
    List.getElem?_append_left (by simpa using h),
    List.getElem?_map, List.getElem?_eq_getElem h]
  rfl

theorem countStart_append {α : Type} (a b : List (Event α)) :
    countStart (a ++ b) = countStart a + countStart b :=
  List.countP_append _ a b

theorem countFileComplete_append {α : Type} (a b : List (Event α)) :
    countFileComplete (a ++ b) = countFileComplete a + countFileComplete b :=
  List.countP_append _ a b

theorem countComplete_append {α : Type} (a b : List (Event α)) :
    countComplete (a ++ b) = countComplete a + countComplete b :=
  List.countP_append _ a b

theorem countGatherCall_append {α : Type} (a b : List (Event α)) :
    countGatherCall (a ++ b) = countGatherCall a + countGatherCall b :=
  List.countP_append _ a b

theorem countStart_cons {α : Type} (e : Event α) (l : List (Event α)) :
    countStart (e :: l)
      = (match e with | .start _ => 1 | _ => 0) + countStart l := by
  cases e <;> simp [countStart, List.countP_cons, Nat.add_comm]

theorem countFileComplete_cons {α : Type} (e : Event α) (l : List (Event α)) :
    countFileComplete (e :: l)
      = (match e with | .fileComplete _ _ _ _ => 1 | _ => 0)
        + countFileComplete l := by
  cases e <;> simp [countFileComplete, isFileComplete, List.countP_cons, Nat.add_comm]

theorem countComplete_cons {α : Type} (e : Event α) (l : List (Event α)) :
    countComplete (e :: l)
      = (match e with | .complete => 1 | _ => 0) + countComplete l := by
  cases e <;> simp [countComplete, List.countP_cons, Nat.add_comm]

theorem countGatherCall_cons {α : Type} (e : Event α) (l : List (Event α)) :
    countGatherCall (e :: l)
      = (match e with | .gatherCall _ _ => 1 | _ => 0) + countGatherCall l := by
  cases e <;> simp [countGatherCall, List.countP_cons, Nat.add_comm]

theorem fcFiles_cons {α : Type} (e : Event α) (l : List (Event α)) :
    fcFiles (e :: l)
      = (match e with | .fileComplete f _ _ _ => [f] | _ => []) ++ fcFiles l := by
  cases e <;> simp [fcFiles, List.filterMap_cons]

theorem fcFiles_append {α : Type} (a b : List (Event α)) :
    fcFiles (a ++ b) = fcFiles a ++ fcFiles b :=
  List.filterMap_append a b _

theorem gatherArgs_cons {α : Type} (e : Event α) (l : List (Event α)) :
    gatherArgs (e :: l)
      = (match e with | .gatherCall rs _ => [rs] | _ => []) ++ gatherArgs l := by
  cases e <;> simp [gatherArgs, List.filterMap_cons]

theorem gatherArgs_append {α : Type} (a b : List (Event α)) :
    gatherArgs (a ++ b) = gatherArgs a ++ gatherArgs b :=
  List.filterMap_append a b _

theorem gatherArgs_eq_nil {α : Type} {t : List (Event α)}
    (h : ∀ e ∈ t, isFileComplete e = true) : gatherArgs t = [] := by
  rw [gatherArgs, List.filterMap_eq_nil_iff]
  intro e he
  have hfc := h e he
  cases e <;> simp [isFileComplete] at hfc ⊢

/-! ### Claim C1 -/

/-- Bool test: if the event is a `fileComplete`, its artifact (`result`)
field is empty. -/
def fileCompleteArtifactEmpty {α : Type} : Event α → Bool
  | .fileComplete _ result _ _ => result == ""
  | _ => true

/-- C1, counterexample: in an Adjoint run of one file whose `process`
succeeds, the emitted `FileComplete` carries `str(self.output_path)` —
here `"out.txt"` — in its artifact field, so it is not empty as the
claim states. -/
theorem C1_counterexample :
    ¬ ∀ e ∈ adjointProcessFilesThread (fun _ => Except.ok "r")
        (fun _ _ => Except.ok ()) "out.txt" "txt" ["a.txt"],
        fileCompleteArtifactEmpty e = true := by
  decide

/-- C1, amended: every per-file `FileComplete` event emitted by the
Adjoint executor carries an empty message and the batch's final output
path in the artifact field when the file succeeded, and an empty
artifact field with the exception's message when it failed; no distinct
per-file artifact exists in either case. -/
theorem C1_adjoint_file_complete_artifact {α : Type}
    (process : String → Except String α)
    (gather : List α → String → Except String Unit)
    (outputPath saveFormat : String) (files : List String)
    (f r : String) (s : Bool) (m : String)
    (hmem : Event.fileComplete f r s m ∈
      adjointProcessFilesThread process gather outputPath saveFormat files) :
    (s = true ∧ r = outputPath ∧ m = "") ∨ (s = false ∧ r = "") := by
  rw [adjointProcessFilesThread_eq] at hmem
  rcases List.mem_append.1 hmem with h | h
  · rcases List.mem_map.1 h with ⟨f', _, hf⟩
    cases hp : process f' <;> simp [adjointFileEvent, hp] at hf
    · right
      exact ⟨hf.2.2.1, hf.2.1.symm⟩
    · left
      exact ⟨hf.2.2.1, hf.2.1.symm, hf.2.2.2.symm⟩
  · cases hg : gather (successfulResults process files) saveFormat <;>
      rw [hg] at h <;> simp at h

/-- C1, witness for the amended theorem at a concrete input: a run of
`["a.txt"]` with a succeeding `process` and output path `"out.txt"`. -/
theorem C1_witness :
    (true = true ∧ "out.txt" = "out.txt" ∧ "" = "") ∨
      (true = false ∧ "out.txt" = "") :=
  C1_adjoint_file_complete_artifact (fun _ => Except.ok "r")
    (fun _ _ => Except.ok ()) "out.txt" "txt" ["a.txt"]
    "a.txt" "out.txt" true "" (by decide)

/-! ### Claim C2 -/

/-- C2, evaluation at the failing input: an Adjoint run of one file
whose `process` succeeds but whose `gather` raises.  The run's trace is
`Start(1)`, one `FileComplete`, and the `gather` invocation; because
`_process_files_thread` wraps neither `_gather_results` nor anything
after it in a `try`, the exception kills the daemon thread before
`_notify_complete`: the observer-visible trace ends with the per-file
event, no `Complete` (nor any other terminal signal) is ever emitted,
and nothing distinguishes the gather failure from silence. -/
theorem C2_gather_failure_silences_observer :
    adjointProcessFiles (fun _ => Except.ok "r") (fun _ _ => Except.error "boom")
        PathShape.absent "out.txt" "txt" ["a.txt"]
      = .ok [Event.start 1, Event.fileComplete "a.txt" "out.txt" true "",
             Event.gatherCall ["r"] "txt"]
    ∧ observerEvents [Event.start 1, Event.fileComplete "a.txt" "out.txt" true "",
          Event.gatherCall ["r"] "txt"]
        = [Event.start 1, Event.fileComplete "a.txt" "out.txt" true ""]
    ∧ countComplete ([Event.start 1, Event.fileComplete "a.txt" "out.txt" true "",
          Event.gatherCall ["r"] "txt"] : List (Event String)) = 0 := by
  refine ⟨rfl, rfl, rfl⟩

/-! ### Claim C3 -/

/-- Bool test: if the event reports a failed file, its message is
non-empty. -/
def failureMessageNonempty {α : Type} : Event α → Bool
  | .fileComplete _ _ false m => !(m == "")
  | _ => true

/-- C3, counterexample: a `process` call that raises an exception whose
message is empty (e.g. `raise ValueError()`, for which `str(e)` is `""`)
is reported with an empty message, because the executor passes `str(e)`
through unchanged. -/
theorem C3_counterexample :
    ¬ ∀ e ∈ individualProcessFilesThread (fun _ _ _ => Except.error "")
        "outdir" "txt" ["a.txt"],
        failureMessageNonempty e = true := by
  decide

/-- C3, amended: in both strategies an exception raised by `process` for
one file is caught inside the executor and that file is reported via
`FileComplete` as a failure whose message is the exception's own message
`str(e)` (non-empty exactly when that message is), and the processing of
every remaining file is unaffected: each position's event is a function
of that file's own `process` outcome alone, every file still gets its
`FileComplete`, and (Individual) the terminal `Complete` is still
emitted. -/
theorem C3_per_file_exception_isolated {α : Type}
    (process : String → String → String → Except String String)
    (processA : String → Except String α)
    (gather : List α → String → Except String Unit)
    (outputPath saveFormat : String) (files : List String)
    (f m : String) (i : Nat) (h : i < files.length) :
    (files[i] = f → process f outputPath saveFormat = .error m →
      (individualProcessFilesThread process outputPath saveFormat files)[i]?
        = some (.fileComplete f "" false m))
    ∧ (files[i] = f → processA f = .error m →
      (adjointProcessFilesThread processA gather outputPath saveFormat files)[i]?
        = some (.fileComplete f "" false m))
    ∧ countFileComplete
        (individualProcessFilesThread process outputPath saveFormat files)
        = files.length
    ∧ countComplete
        (individualProcessFilesThread process outputPath saveFormat files) = 1
    ∧ countFileComplete
        (adjointProcessFilesThread processA gather outputPath saveFormat files)
        = files.length
    ∧ (∀ process' : String → String → String → Except String String,
        (∀ g, g ≠ f → process' g outputPath saveFormat
            = process g outputPath saveFormat) →
        files[i] ≠ f →
        (individualProcessFilesThread process' outputPath saveFormat files)[i]?
          = (individualProcessFilesThread process outputPath saveFormat files)[i]?)
    ∧ (∀ processA' : String → Except String α,
        (∀ g, g ≠ f → processA' g = processA g) →
        files[i] ≠ f →
        (adjointProcessFilesThread processA' gather outputPath saveFormat files)[i]?
          = (adjointProcessFilesThread processA gather outputPath saveFormat files)[i]?) := by
  refine ⟨?_, ?_, ?_, ?_, ?_, ?_, ?_⟩
  · intro hf hp
    rw [individualThread_getElem process outputPath saveFormat files i h, hf]
    simp [individualFileEvent, hp]
  · intro hf hp
    rw [adjointThread_getElem processA gather outputPath saveFormat files i h, hf]
    simp [adjointFileEvent, hp]
  · rw [individualProcessFilesThread, countFileComplete_append,
      countFileComplete_eq_length (individualLoop_all_fc process outputPath saveFormat files),
      individualLoop_eq_map, List.length_map]
    rfl
  · rw [individualProcessFilesThread, countComplete_append,
      countComplete_eq_zero (individualLoop_all_fc process outputPath saveFormat files)]
    rfl
  · rw [adjointProcessFilesThread_eq, countFileComplete_append,
      countFileComplete_eq_length (adjointEvents_all_fc processA outputPath files),
      List.length_map]
    cases hg : gather (successfulResults processA files) saveFormat <;>
      simp [hg, countFileComplete, List.countP_cons, isFileComplete]
  · intro process' hagree hne
    rw [individualThread_getElem process outputPath saveFormat files i h,
      individualThread_getElem process' outputPath saveFormat files i h]
    simp [individualFileEvent, hagree files[i] hne]
  · intro processA' hagree hne
    rw [adjointThread_getElem processA gather outputPath saveFormat files i h,
      adjointThread_getElem processA' gather outputPath saveFormat files i h]
    simp [adjointFileEvent, hagree files[i] hne]

/-- C3, witness at a concrete input: two files, the first raising with
message `"oops"`, reported as a failure with that message in both
strategies. -/
theorem C3_witness :
    (individualProcessFilesThread
        (fun g _ _ => if g = "a.txt" then Except.error "oops" else Except.ok "res")
        "outdir" "txt" ["a.txt", "b.txt"])[0]?
      = some (.fileComplete "a.txt" "" false "oops")
    ∧ (adjointProcessFilesThread
        (fun g => if g = "a.txt" then Except.error "oops" else Except.ok "r")
        (fun _ _ => Except.ok ()) "outdir" "txt" ["a.txt", "b.txt"])[0]?
      = some (.fileComplete "a.txt" "" false "oops") := by
  have hmain := C3_per_file_exception_isolated
    (fun g _ _ => if g = "a.txt" then Except.error "oops" else Except.ok "res")
    (fun g => if g = "a.txt" then Except.error "oops" else Except.ok "r")
    (fun _ _ => Except.ok ()) "outdir" "txt" ["a.txt", "b.txt"]
    "a.txt" "oops" 0 (by decide)
  exact ⟨hmain.1 rfl rfl, hmain.2.1 rfl rfl⟩

/-! ### Claim C4 -/

/-- C4: a run request whose output target's shape does not match the
processor's category — a file-shaped target for the Individual strategy,
a directory-shaped target for the Adjoint strategy — fails synchronously
from `process_files` with the invalid-output-target error, before any
file is touched and before any asynchronous work begins: the run
produces no events at all (no `Start`, no `fileComplete`, no `gather`
invocation, no `Complete`). -/
theorem C4_invalid_output_target_synchronous {α : Type}
    (process : String → Except String α)
    (gather : List α → String → Except String Unit)
    (processInd : String → String → String → Except String String)
    (outputPath saveFormat : String) (files : List String) :
    individualProcessFiles processInd .file outputPath saveFormat files
        = .error .invalidOutputTarget
    ∧ adjointProcessFiles process gather .dir outputPath saveFormat files
        = .error .invalidOutputTarget :=
  ⟨rfl, rfl⟩

/-! ### Claim C5 -/

/-- C5, counterexample: an Adjoint run of two files, both succeeding,
whose `gather` raises: the observer receives `Start(2)` and two
`FileComplete` events but zero `Complete()` events, not exactly one. -/
theorem C5_counterexample :
    adjointProcessFiles (fun _ => Except.ok "r") (fun _ _ => Except.error "agg")
        PathShape.absent "sum.txt" "txt" ["a.txt", "b.txt"]
      = .ok [Event.start 2, Event.fileComplete "a.txt" "sum.txt" true "",
             Event.fileComplete "b.txt" "sum.txt" true "",
             Event.gatherCall ["r", "r"] "txt"]
    ∧ countComplete ([Event.start 2, Event.fileComplete "a.txt" "sum.txt" true "",
          Event.fileComplete "b.txt" "sum.txt" true "",
          Event.gatherCall ["r", "r"] "txt"] : List (Event String)) = 0 := by
  exact ⟨rfl, rfl⟩

/-- C5, amended: for every batch of N files, regardless of how many
per-file tasks fail, a run accepted by the entry point emits exactly one
`Start(N)` (first), exactly N `FileComplete` events (one per file, in
submission order), and — for the Individual strategy always, for the
Adjoint strategy provided its `gather` step returns normally — exactly
one `Complete()`, emitted after all per-file events (it is the last
event); in an Adjoint run whose `gather` step raises, `Start` and the N
`FileComplete` events are still emitted but no `Complete()` ever
follows. -/
theorem C5_observer_event_discipline {α : Type}
    (process : String → String → String → Except String String)
    (processA : String → Except String α)
    (gather : List α → String → Except String Unit)
    (shapeI shapeA : PathShape) (outputPath saveFormat : String)
    (files : List String) :
    (∀ t, individualProcessFiles process shapeI outputPath saveFormat files
        = .ok t →
      countStart t = 1 ∧ t[0]? = some (.start files.length)
      ∧ countFileComplete t = files.length ∧ fcFiles t = files
      ∧ countComplete t = 1 ∧ t.getLast? = some .complete)
    ∧ (∀ t, adjointProcessFiles processA gather shapeA outputPath saveFormat files
          = .ok t →
        countStart t = 1 ∧ t[0]? = some (.start files.length)
        ∧ countFileComplete t = files.length ∧ fcFiles t = files
        ∧ (gather (successfulResults processA files) saveFormat = .ok () →
            countComplete t = 1 ∧ t.getLast? = some .complete)
        ∧ (∀ e, gather (successfulResults processA files) saveFormat = .error e →
            countComplete t = 0)) := by
  constructor
  · intro t ht
    rw [individualProcessFiles] at ht
    by_cases hs : shapeI = PathShape.file
    · simp [hs] at ht
    · simp [hs] at ht
      subst ht
      rw [individualProcessFilesThread]
      have hall := individualLoop_all_fc process outputPath saveFormat files
      refine ⟨?_, List.getElem?_cons_zero, ?_, ?_, ?_, ?_⟩
      · rw [countStart_cons, countStart_append,
          countStart_eq_zero hall]
        simp [countStart, countFileComplete, countComplete, fcFiles, isFileComplete, List.countP_cons, List.filterMap_cons]
      · rw [countFileComplete_cons, countFileComplete_append,
          countFileComplete_eq_length hall, individualLoop_eq_map,
          List.length_map]
        simp [countStart, countFileComplete, countComplete, fcFiles, isFileComplete, List.countP_cons, List.filterMap_cons]
      · rw [fcFiles_cons, fcFiles_append,
          fcFiles_individualLoop process outputPath saveFormat files]
        simp [countStart, countFileComplete, countComplete, fcFiles, isFileComplete, List.countP_cons, List.filterMap_cons]
      · rw [countComplete_cons, countComplete_append,
          countComplete_eq_zero hall]
        simp [countStart, countFileComplete, countComplete, fcFiles, isFileComplete, List.countP_cons, List.filterMap_cons]
      · rw [← List.cons_append, List.getLast?_concat]
  · intro t ht
    rw [adjointProcessFiles] at ht
    by_cases hs : shapeA = PathShape.dir
    · simp [hs] at ht
    · simp [hs] at ht
      subst ht
      rw [adjointProcessFilesThread_eq]
      have hall := adjointEvents_all_fc processA outputPath files
      cases hg : gather (successfulResults processA files) saveFormat with
      | ok u =>
        simp only [hg]
        refine ⟨?_, List.getElem?_cons_zero, ?_, ?_, ?_, ?_⟩
        · rw [countStart_cons, countStart_append, countStart_eq_zero hall]
          simp [countStart, countFileComplete, countComplete, fcFiles, isFileComplete, List.countP_cons, List.filterMap_cons]
        · rw [countFileComplete_cons, countFileComplete_append,
            countFileComplete_eq_length hall, List.length_map]
          simp [countStart, countFileComplete, countComplete, fcFiles, isFileComplete, List.countP_cons, List.filterMap_cons]
        · rw [fcFiles_cons, fcFiles_append,
            fcFiles_adjointEvents processA outputPath files]
          simp [countStart, countFileComplete, countComplete, fcFiles, isFileComplete, List.countP_cons, List.filterMap_cons]
        · intro _
          constructor
          · rw [countComplete_cons, countComplete_append,
              countComplete_eq_zero hall]
            simp [countStart, countFileComplete, countComplete, fcFiles, isFileComplete, List.countP_cons, List.filterMap_cons]
          · rw [show Event.gatherCall (successfulResults processA files) saveFormat
                  :: [Event.complete]
                = [Event.gatherCall (successfulResults processA files) saveFormat]
                  ++ [Event.complete] from rfl,
              ← List.cons_append, ← List.append_assoc, List.getLast?_concat]
        · intro e he
          exact Except.noConfusion he
      | error e =>
        simp only [hg]
        refine ⟨?_, List.getElem?_cons_zero, ?_, ?_, ?_, ?_⟩
        · rw [countStart_cons, countStart_append, countStart_eq_zero hall]
          simp [countStart, countFileComplete, countComplete, fcFiles, isFileComplete, List.countP_cons, List.filterMap_cons]
        · rw [countFileComplete_cons, countFileComplete_append,
            countFileComplete_eq_length hall, List.length_map]
          simp [countStart, countFileComplete, countComplete, fcFiles, isFileComplete, List.countP_cons, List.filterMap_cons]
        · rw [fcFiles_cons, fcFiles_append,
            fcFiles_adjointEvents processA outputPath files]
          simp [countStart, countFileComplete, countComplete, fcFiles, isFileComplete, List.countP_cons, List.filterMap_cons]
        · intro hok
          exact Except.noConfusion hok
        · intro e' _
          rw [countComplete_cons, countComplete_append,
            countComplete_eq_zero hall, countComplete_cons]
          simp [countStart, countFileComplete, countComplete, fcFiles, isFileComplete, List.countP_cons, List.filterMap_cons]

/-- C5, witness at a concrete input: an Individual run of two files that
both succeed. -/
theorem C5_witness :
    countStart ([Event.start 2, Event.fileComplete "a.txt" "res" true "",
        Event.fileComplete "b.txt" "res" true "", Event.complete] : List (Event Unit)) = 1
    ∧ ([Event.start 2, Event.fileComplete "a.txt" "res" true "",
        Event.fileComplete "b.txt" "res" true "",
        Event.complete] : List (Event Unit))[0]?
      = some (.start (["a.txt", "b.txt"] : List String).length)
    ∧ countFileComplete ([Event.start 2, Event.fileComplete "a.txt" "res" true "",
        Event.fileComplete "b.txt" "res" true "", Event.complete] : List (Event Unit))
      = (["a.txt", "b.txt"] : List String).length
    ∧ fcFiles ([Event.start 2, Event.fileComplete "a.txt" "res" true "",
        Event.fileComplete "b.txt" "res" true "", Event.complete] : List (Event Unit))
      = ["a.txt", "b.txt"]
    ∧ countComplete ([Event.start 2, Event.fileComplete "a.txt" "res" true "",
        Event.fileComplete "b.txt" "res" true "", Event.complete] : List (Event Unit)) = 1
    ∧ ([Event.start 2, Event.fileComplete "a.txt" "res" true "",
        Event.fileComplete "b.txt" "res" true "",
        Event.complete] : List (Event Unit)).getLast? = some .complete :=
  (C5_observer_event_discipline (α := Unit) (fun _ _ _ => Except.ok "res")
      (fun _ => Except.ok ()) (fun _ _ => Except.ok ()) PathShape.absent
      PathShape.absent "outdir" "txt" ["a.txt", "b.txt"]).1
    [Event.start 2, Event.fileComplete "a.txt" "res" true "",
      Event.fileComplete "b.txt" "res" true "", Event.complete] rfl

/-! ### Claim C6 -/

/-- C6: in every Adjoint thread run, `gather` is invoked exactly once;
the first N trace entries are exactly the N per-file completion events
(so the invocation happens only after every submitted task has
finished), position N is the `gather` invocation and its argument is
exactly the ordered collection of successful intermediate results
(failed files contribute nothing); no `Complete` occurs at or before the
`gather` position, and when `gather` returns normally the trace is the
per-file events, the `gather` invocation and then `Complete()`. -/
theorem C6_adjoint_gather_once_after_all {α : Type}
    (processA : String → Except String α)
    (gather : List α → String → Except String Unit)
    (outputPath saveFormat : String) (files : List String) :
    countGatherCall
        (adjointProcessFilesThread processA gather outputPath saveFormat files) = 1
    ∧ gatherArgs
        (adjointProcessFilesThread processA gather outputPath saveFormat files)
      = [successfulResults processA files]
    ∧ (adjointProcessFilesThread processA gather outputPath saveFormat files).take
        files.length
      = files.map (adjointFileEvent processA outputPath)
    ∧ (adjointProcessFilesThread processA gather outputPath saveFormat files)[files.length]?
      = some (.gatherCall (successfulResults processA files) saveFormat)
    ∧ Event.complete ∉
        (adjointProcessFilesThread processA gather outputPath saveFormat files).take
          (files.length + 1)
    ∧ (gather (successfulResults processA files) saveFormat = .ok () →
        adjointProcessFilesThread processA gather outputPath saveFormat files
          = files.map (adjointFileEvent processA outputPath)
            ++ [.gatherCall (successfulResults processA files) saveFormat,
                .complete]) := by
  rw [adjointProcessFilesThread_eq]
  have hall := adjointEvents_all_fc processA outputPath files
  have hlen : (files.map (adjointFileEvent processA outputPath)).length
      = files.length := List.length_map files _
  refine ⟨?_, ?_, ?_, ?_, ?_, ?_⟩
  · rw [countGatherCall_append, countGatherCall_eq_zero hall,
      countGatherCall_cons]
    cases hg : gather (successfulResults processA files) saveFormat <;> rfl
  · rw [gatherArgs_append, gatherArgs_eq_nil hall, gatherArgs_cons]
    cases hg : gather (successfulResults processA files) saveFormat <;> rfl
  · rw [← hlen, List.take_left]
  · rw [List.getElem?_append_right (by omega), hlen]
    simp
  · rw [← hlen, List.take_append]
    intro hmem
    rcases List.mem_append.1 hmem with hmem | hmem
    · have := hall _ hmem
      simp [isFileComplete] at this
    · cases hg : gather (successfulResults processA files) saveFormat <;>
        rw [hg] at hmem <;> simp [List.take] at hmem
  · intro hok
    rw [hok]

/-- C6, witness at a concrete input: two files, both succeeding, with a
`gather` that returns normally. -/
theorem C6_witness :
    adjointProcessFilesThread (fun _ => Except.ok "r") (fun _ _ => Except.ok ())
        "out.txt" "txt" ["a.txt", "b.txt"]
      = (["a.txt", "b.txt"] : List String).map
          (adjointFileEvent (fun _ => Except.ok "r") "out.txt")
        ++ [.gatherCall
              (successfulResults (fun _ => Except.ok "r") ["a.txt", "b.txt"]) "txt",
            .complete] :=
  (C6_adjoint_gather_once_after_all (fun _ => Except.ok "r")
      (fun _ _ => Except.ok ()) "out.txt" "txt" ["a.txt", "b.txt"]).2.2.2.2.2 rfl

/-! ### Claim C7 -/

/-- C7: the factory rejects a processor whose category has no registered
strategy (`UNKNOWN`) with the unsupported-category error, and for every
category it leaves the external state (the filesystem) untouched: its
only outcome is the constructed strategy object or the error. -/
theorem C7_factory_unsupported_category_pure {σ : Type} (s : σ) :
    create_batch_processor .UNKNOWN s = (.error .unsupportedCategory, s)
    ∧ ∀ (category : ProcessorCategory) (t : σ),
        (create_batch_processor category t).2 = t := by
  refine ⟨rfl, ?_⟩
  intro category t
  cases category <;> rfl

/-! ### Claim C8 -/

/-- C8: during discovery, a candidate module that fails to load (both
its primary and alternate imports raising) is caught per candidate, and
every processor class defined in any candidate whose import succeeds is
still in the returned list, whatever happens to the other candidates. -/
theorem C8_discovery_isolates_load_failures
    (files : List PluginFile) (pf : PluginFile) (ms : List PluginMember)
    (m : PluginMember) (hpf : pf ∈ files) (hok : pf.importResult = .ok ms)
    (hm : m ∈ modulePlugins ms) :
    m ∈ discover_plugins files := by
  induction files with
  | nil => cases hpf
  | cons q rest ih =>
    rw [discover_plugins]
    rcases List.mem_cons.1 hpf with rfl | hpf'
    · refine List.mem_append.2 (Or.inl ?_)
      rw [discoverFile, hok]
      exact hm
    · exact List.mem_append.2 (Or.inr (ih hpf'))

/-- C8, witness at a concrete input: a plugin set where the first
candidate fails both imports and the second loads, defining one
processor class (and the base `Processor` class, which is excluded);
that class is still discovered. -/
theorem C8_witness :
    (⟨"StatisticsProcessor", true, true, false⟩ : PluginMember)
      ∈ discover_plugins
          [⟨"broken", .error "SyntaxError", .error "SyntaxError"⟩,
           ⟨"statistics_processor",
             .ok [⟨"StatisticsProcessor", true, true, false⟩,
                  ⟨"Processor", true, true, true⟩],
             .error "unused"⟩] :=
  C8_discovery_isolates_load_failures
    [⟨"broken", .error "SyntaxError", .error "SyntaxError"⟩,
     ⟨"statistics_processor",
       .ok [⟨"StatisticsProcessor", true, true, false⟩,
            ⟨"Processor", true, true, true⟩],
       .error "unused"⟩]
    ⟨"statistics_processor",
      .ok [⟨"StatisticsProcessor", true, true, false⟩,
           ⟨"Processor", true, true, true⟩],
      .error "unused"⟩
    [⟨"StatisticsProcessor", true, true, false⟩, ⟨"Processor", true, true, true⟩]
    ⟨"StatisticsProcessor", true, true, false⟩
    (by simp) rfl (by decide)

/-! ### Claim C9 -/

/-- C9, counterexample: a declared dependency whose import raises an
exception that is not an `ImportError` (e.g. the module's top-level code
raising) propagates out of `check_dependencies`, because the loop
catches only `ImportError`; so `check_dependencies` does not "never
raise". -/
theorem C9_counterexample :
    check_dependencies ["numpy"] (fun _ => ImportOutcome.otherError "boom")
      = .error "boom" := rfl

theorem collectMissing_eq (env : String → ImportOutcome)
    (dependencies : List String)
    (h : ∀ dep ∈ dependencies, ∀ msg, env dep ≠ .otherError msg) :
    collectMissing env dependencies
      = .ok (dependencies.filter fun dep =>
          match env dep with | .importError _ => true | _ => false) := by
  induction dependencies with
  | nil => rfl
  | cons dep rest ih =>
    have hrest : ∀ d ∈ rest, ∀ msg, env d ≠ .otherError msg :=
      fun d hd => h d (List.mem_cons_of_mem dep hd)
    cases he : env dep with
    | ok => simp [collectMissing, he, ih hrest, List.filter_cons]
    | importError msg => simp [collectMissing, he, ih hrest, List.filter_cons]
    | otherError msg => exact absurd he (h dep (List.mem_cons_self dep rest) msg)

/-- C9, amended: `check_dependencies` catches only `ImportError`.
Provided every declared dependency's import either succeeds or fails
with `ImportError`, it returns without raising exactly the declared
dependencies whose import fails (in declaration order), with the
available flag true iff that list is empty; a dependency whose import
raises any other exception propagates out of `check_dependencies`. -/
theorem C9_check_dependencies_reports_missing
    (dependencies : List String) (env : String → ImportOutcome)
    (h : ∀ dep ∈ dependencies, ∀ msg, env dep ≠ .otherError msg) :
    check_dependencies dependencies env
      = .ok ((dependencies.filter fun dep =>
            match env dep with | .importError _ => true | _ => false).isEmpty,
          dependencies.filter fun dep =>
            match env dep with | .importError _ => true | _ => false) := by
  rw [check_dependencies, collectMissing_eq env dependencies h]

/-- C9, witness at a concrete input: two declared dependencies, one
available and one failing with `ImportError`: the missing list is
exactly the failing one and the available flag is false. -/
theorem C9_witness :
    check_dependencies ["numpy", "pandas"]
        (fun d => if d = "pandas" then ImportOutcome.importError "no module"
                  else ImportOutcome.ok)
      = .ok (false, ["pandas"]) := by
  have h := C9_check_dependencies_reports_missing ["numpy", "pandas"]
    (fun d => if d = "pandas" then ImportOutcome.importError "no module"
              else ImportOutcome.ok)
    (by
      intro dep hdep msg
      rcases List.mem_cons.1 hdep with rfl | hdep'
      · simp
      · rcases List.mem_cons.1 hdep' with rfl | hdep''
        · simp
        · cases hdep'')
  exact h

/-! ### Claim C10 -/

/-- Number of deliveries made to observer `o` in one notification
round's delivery list. -/
def deliveriesTo {Obs α : Type} [DecidableEq Obs] (o : Obs)
    (ds : List (Obs × Event α)) : Nat :=
  ds.countP fun d => decide (d.1 = o)

theorem deliveriesTo_notifyObservers {Obs α : Type} [DecidableEq Obs]
    (l : List Obs) (o : Obs) (e : Event α) :
    deliveriesTo o (notifyObservers l e) = l.countP fun x => decide (x = o) := by
  induction l with
  | nil => rfl
  | cons a rest ih =>
    simp [deliveriesTo, notifyObservers, List.countP_cons] at ih ⊢
    rw [ih]

theorem countP_self_of_nodup {Obs : Type} [DecidableEq Obs] {l : List Obs}
    {o : Obs} (hnd : l.Nodup) (hmem : o ∈ l) :
    (l.countP fun x => decide (x = o)) = 1 := by
  induction l with
  | nil => cases hmem
  | cons a rest ih =>
    rw [List.countP_cons]
    rcases List.mem_cons.1 hmem with rfl | hmem'
    · have hnotin : o ∉ rest := (List.nodup_cons.1 hnd).1
      have hzero : (rest.countP fun x => decide (x = o)) = 0 := by
        rw [List.countP_eq_zero]
        intro x hx
        simp only [decide_eq_true_eq]
        intro hxa
        exact hnotin (hxa ▸ hx)
      simp [hzero]
    · have hne : a ≠ o := by
        rintro rfl
        exact (List.nodup_cons.1 hnd).1 hmem'
      rw [ih (List.nodup_cons.1 hnd).2 hmem']
      simp [hne]

/-- C10: `add_observer` is idempotent — registering an observer that is
already registered leaves the list unchanged — so starting from a
duplicate-free observer list it keeps the list duplicate-free, and after
registration each registered observer receives each notification
(`on_start` / `on_file_complete` / `on_complete`) exactly once per
emission round. -/
theorem C10_add_observer_idempotent {Obs α : Type} [DecidableEq Obs]
    (observers : List Obs) (observer : Obs) (e : Event α) :
    (observer ∈ observers → add_observer observers observer = observers)
    ∧ add_observer (add_observer observers observer) observer
        = add_observer observers observer
    ∧ (observers.Nodup → (add_observer observers observer).Nodup)
    ∧ (observers.Nodup → ∀ o ∈ add_observer observers observer,
        deliveriesTo o (notifyObservers (add_observer observers observer) e)
          = 1) := by
  have hmem : observer ∈ add_observer observers observer := by
    by_cases h : observer ∈ observers <;> simp [add_observer, h]
  have hnodup : observers.Nodup → (add_observer observers observer).Nodup := by
    intro hnd
    by_cases h : observer ∈ observers
    · rw [add_observer, if_pos h]
      exact hnd
    · rw [add_observer, if_neg h]
      rw [List.nodup_append]
      refine ⟨hnd, List.nodup_singleton observer, ?_⟩
      intro x hx hx1
      rw [List.mem_singleton] at hx1
      exact h (hx1 ▸ hx)
  refine ⟨?_, ?_, hnodup, ?_⟩
  · intro h
    rw [add_observer, if_pos h]
  · rw [add_observer, if_pos hmem]
  · intro hnd o ho
    rw [deliveriesTo_notifyObservers]
    exact countP_self_of_nodup (hnodup hnd) ho

/-- C10, witness at a concrete input: observers `[1, 2]` with `2`
re-registered. -/
theorem C10_witness :
    add_observer [1, 2] 2 = [1, 2]
    ∧ add_observer (add_observer [1, 2] 2) 2 = add_observer [1, 2] 2
    ∧ (add_observer [1, 2] 2).Nodup
    ∧ deliveriesTo 2
        (notifyObservers (add_observer [1, 2] 2) (Event.complete : Event Unit))
      = 1 := by
  have h := C10_add_observer_idempotent [1, 2] 2 (Event.complete : Event Unit)
  exact ⟨h.1 (by decide), h.2.1, h.2.2.1 (by decide),
    h.2.2.2 (by decide) 2 (by decide)⟩

end FileBatchProcessor
